import Mathlib

/-!
Verification of the pytest-html-dashboard core components against their
specification, via a shallow embedding of the Python sources.

Embedded modules:
* `src/pytest_dashboard/error_reporting.py` — `ErrorClassifier`,
  `ErrorExtractor`, `EnhancedErrorReporter`.
* `src/pytest_html_dashboard/history.py` — `TestHistory` and its SQLite
  tables (`test_runs`, `test_results`, `flaky_tests`), modelled as lists of
  rows in rowid (insertion) order.

Modelling conventions:
* Python strings are Lean `String`s; character-level work uses `List Char`.
* `str.lower()` is modelled for ASCII (`asciiLower`), which covers every
  literal occurring in the classifier's pattern table.
* SQLite `CURRENT_TIMESTAMP` values are modelled as integers supplied by the
  caller (`now`); `datetime('now', '-N days')` becomes `now - N` with one
  time unit per day.
* SQLite `REAL` arithmetic is modelled exactly over `ℚ`; Python's
  `round(x, n)` (round-half-to-even) is `roundN n`.
-/

namespace Dashboard

/-- Lowercase an ASCII character, as Python `str.lower` does on ASCII text. -/
def lowerChar (c : Char) : Char :=
  if 'A' ≤ c ∧ c ≤ 'Z' then Char.ofNat (c.toNat + 32) else c

/-- Lowercase a character list. -/
def lowerStr (s : List Char) : List Char := s.map lowerChar

/-- First occurrence search: drop everything up to and including the first
occurrence of `needle` in `hay`, or `none` when `needle` does not occur. -/
def dropAfter? (needle : List Char) : List Char → Option (List Char)
  | [] => if needle.isPrefixOf ([] : List Char) then some [] else none
  | c :: rest =>
      if needle.isPrefixOf (c :: rest) then some ((c :: rest).drop needle.length)
      else dropAfter? needle rest

/-- Match a `.*`-separated regex body: the literal segments must occur in
order, without overlap, inside `hay`. -/
def segsMatch : List (List Char) → List Char → Bool
  | [], _ => true
  | seg :: rest, hay =>
      match dropAfter? seg hay with
      | some hay' => segsMatch rest hay'
      | none => false

/-- Split a character list on newline characters (Python `str.split` on
a single newline character). -/
def splitNl : List Char → List (List Char)
  | [] => [[]]
  | c :: rest =>
      let r := splitNl rest
      if c = '\n' then [] :: r
      else
        match r with
        | [] => [[c]]
        | l :: ls => (c :: l) :: ls

namespace ErrorClassifier

/-- Semantics of one entry of `ErrorClassifier.ERROR_PATTERNS` applied with
`re.search(pattern, error_text, re.IGNORECASE)`.  Every pattern in the table
has the shape `.*lit1.*lit2.*…*` with literal segments and no other regex
construct, so it is embedded by its list of literal segments.  Because `.`
does not match a newline, a regex match lies entirely within one line of the
text; `re.search` then succeeds iff some line contains the segments in
order.  Case-insensitivity is realised by lowercasing both sides. -/
def patternMatches (segs : List String) (text : List Char) : Bool :=
  (splitNl text).any (fun line => segsMatch (segs.map (fun s => lowerStr s.data)) line)

/-- The ordered rule table `ErrorClassifier.ERROR_PATTERNS` (a Python dict,
iterated in insertion order); each regex is written as its literal segments. -/
def ERROR_PATTERNS : List (String × List (List String)) :=
  [ ("ASSERTION_FAILURE",
      [["AssertionError"], ["assert", "failed"], ["expected", "but", "got"],
       ["assertion", "error"]]),
    ("TIMEOUT_ERROR",
      [["timeout"], ["timed out"], ["TimeoutException"],
       ["connection", "timeout"]]),
    ("CONNECTION_ERROR",
      [["connection", "error"], ["connection", "refused"],
       ["connection", "failed"], ["cannot connect"]]),
    ("NETWORK_ERROR",
      [["network", "error"], ["host", "unreachable"],
       ["dns", "resolution", "failed"], ["socket", "error"]]),
    ("PERMISSION_ERROR",
      [["permission", "denied"], ["access", "denied"],
       ["insufficient", "privileges"], ["SecurityException"]]),
    ("FILE_NOT_FOUND",
      [["file", "not", "found"], ["FileNotFoundError"],
       ["path", "does", "not", "exist"], ["No such file"]]),
    ("CONFIGURATION_ERROR",
      [["config", "error"], ["configuration", "invalid"],
       ["settings", "not", "found"], ["yaml", "error"], ["json", "error"]]),
    ("IMPORT_ERROR",
      [["ImportError"], ["ModuleNotFoundError"], ["cannot import"],
       ["import", "failed"]]),
    ("VALUE_ERROR",
      [["ValueError"], ["invalid", "value"], ["value", "error"]]),
    ("TYPE_ERROR",
      [["TypeError"], ["type", "error"], ["unexpected", "type"]]),
    ("ATTRIBUTE_ERROR",
      [["AttributeError"], ["attribute", "not", "found"],
       ["has no attribute"]]),
    ("KEY_ERROR",
      [["KeyError"], ["key", "not", "found"], ["missing", "key"]]),
    ("INDEX_ERROR",
      [["IndexError"], ["index", "out", "of", "range"], ["list", "index"]]) ]

/-- The nested `for category … for pattern …` loops of `classify_error`. -/
def classifyGo : List (String × List (List String)) → List Char → String
  | [], _ => "UNKNOWN"
  | (cat, pats) :: rest, text =>
      if pats.any (fun p => patternMatches p text) then cat
      else classifyGo rest text

/-- Embedding of `ErrorClassifier.classify_error`: lowercases
`f"{error_message} {stack_trace}"` and returns the category of the first
rule with a matching pattern, `"UNKNOWN"` otherwise. -/
def classify_error (error_message : String) (stack_trace : String := "") : String :=
  classifyGo ERROR_PATTERNS (lowerStr (error_message.data ++ ' ' :: stack_trace.data))

/-- The generic remediation text, `SUGGESTED_ACTIONS['UNKNOWN']`. -/
def UNKNOWN_ACTION : String :=
  "Review error message and stack trace, check logs for additional context"

/-- Embedding of `ErrorClassifier.SUGGESTED_ACTIONS`. -/
def SUGGESTED_ACTIONS : List (String × String) :=
  [ ("ASSERTION_FAILURE", "Review test logic, verify expected values, check test data validity"),
    ("TIMEOUT_ERROR", "Increase timeout values, check performance, verify system responsiveness"),
    ("CONNECTION_ERROR", "Verify connection parameters, check service availability, review network settings"),
    ("NETWORK_ERROR", "Check network connectivity, verify IP addresses/URLs, test network access"),
    ("PERMISSION_ERROR", "Run with elevated privileges, check file/directory permissions"),
    ("FILE_NOT_FOUND", "Verify file paths, check if files were created, review test setup"),
    ("CONFIGURATION_ERROR", "Validate configuration files, check syntax, verify settings"),
    ("IMPORT_ERROR", "Check module installation, verify dependencies, review Python path"),
    ("VALUE_ERROR", "Validate input values, check data types, review function parameters"),
    ("TYPE_ERROR", "Verify data types, check type conversions, review function signatures"),
    ("ATTRIBUTE_ERROR", "Check object attributes, verify class definitions, review API usage"),
    ("KEY_ERROR", "Verify dictionary keys, check data structure, validate JSON/dict access"),
    ("INDEX_ERROR", "Check list bounds, verify array access, validate index values"),
    ("UNKNOWN", UNKNOWN_ACTION) ]

/-- Embedding of `ErrorClassifier.get_suggested_action`:
`SUGGESTED_ACTIONS.get(category, SUGGESTED_ACTIONS['UNKNOWN'])`. -/
def get_suggested_action (category : String) : String :=
  ((SUGGESTED_ACTIONS.find? (fun kv => kv.1 == category)).map (fun kv => kv.2)).getD
    UNKNOWN_ACTION

/-- Specification-side reading of the classifier contract: the category of
the first rule in the ordered table for which any pattern matches, with
`"UNKNOWN"` as fallback. -/
def classifyFirstMatch (error_message : String) (stack_trace : String := "") : String :=
  let text := lowerStr (error_message.data ++ ' ' :: stack_trace.data)
  match ERROR_PATTERNS.find? (fun cp => cp.2.any (fun p => patternMatches p text)) with
  | some cp => cp.1
  | none => "UNKNOWN"

theorem classifyGo_eq_find (l : List (String × List (List String))) (text : List Char) :
    classifyGo l text =
      (match l.find? (fun cp => cp.2.any (fun p => patternMatches p text)) with
       | some cp => cp.1
       | none => "UNKNOWN") := by
  induction l with
  | nil => rfl
  | cons hd tl ih =>
      cases hmatch : hd.2.any (fun p => patternMatches p text) with
      | true =>
          obtain ⟨c, ps⟩ := hd
          simp only [classifyGo, List.find?]
          simp only [hmatch] at *
          simp [hmatch]
      | false =>
          obtain ⟨c, ps⟩ := hd
          simp only [classifyGo, List.find?]
          simp only [hmatch] at *
          simp [hmatch, ih]

end ErrorClassifier

/-- Does `needle` occur as a contiguous substring of `hay` (Python `in`)? -/
def containsSub (needle hay : List Char) : Bool :=
  (dropAfter? needle hay).isSome

/-- Index of the first occurrence of `needle` in `hay` (Python `str.find`,
with `none` for `-1`). -/
def findIdx? (needle : List Char) : List Char → Option Nat
  | [] => if needle.isPrefixOf ([] : List Char) then some 0 else none
  | c :: rest =>
      if needle.isPrefixOf (c :: rest) then some 0
      else (findIdx? needle rest).map (· + 1)

/-- Python `str.replace(needle, rep)`: replace every non-overlapping
occurrence, scanning left to right.  (Call sites in the source always pass a
non-empty `needle`; for an empty `needle` this returns `hay` unchanged.) -/
def replaceAll (needle rep : List Char) : List Char → List Char
  | [] => []
  | c :: rest =>
      if h : needle ≠ [] ∧ needle.isPrefixOf (c :: rest) then
        rep ++ replaceAll needle rep ((c :: rest).drop needle.length)
      else
        c :: replaceAll needle rep rest
termination_by l => l.length
decreasing_by
  · have h1 : 0 < needle.length := List.length_pos.mpr h.1
    simp only [List.length_drop, List.length_cons]
    omega
  · simp

/-- Characters stripped by Python `str.strip()`. -/
def isPyWs (c : Char) : Bool :=
  c = ' ' || c = '\t' || c = '\n' || c = '\r' || c = '\x0b' || c = '\x0c'

/-- Python `str.strip()`. -/
def pyStrip (s : List Char) : List Char :=
  ((s.dropWhile isPyWs).reverse.dropWhile isPyWs).reverse

/-- Embedding of the `ErrorDetails` dataclass. -/
structure ErrorDetails where
  error_type : String
  error_message : String
  error_category : String
  stack_trace : String
  test_step : Option String
  timestamp : String
  suggested_action : String
  error_code : Option String := none
  affected_component : Option String := none
deriving DecidableEq

namespace ErrorExtractor

/-- The `error_types` list scanned by `extract_from_pytest_log`. -/
def error_types : List String :=
  ["RuntimeError", "AssertionError", "TimeoutException", "TimeoutError",
   "ValueError", "TypeError", "AttributeError", "KeyError", "IndexError",
   "ImportError", "ModuleNotFoundError", "FileNotFoundError",
   "ConnectionError", "NetworkError", "PermissionError"]

/-- The fallback loop of `extract_from_pytest_log`: first line whose stripped
form starts with `"E   "` and whose `replace`-then-`strip` result is
non-empty. -/
def fallbackE : List (List Char) → List Char
  | [] => []
  | line :: rest =>
      if "E   ".data.isPrefixOf (pyStrip line) then
        let m := pyStrip (replaceAll "E   ".data [] line)
        if m ≠ [] then m else fallbackE rest
      else fallbackE rest

/-- Embedding of `ErrorExtractor.extract_from_pytest_log`.  The wall-clock
timestamp `datetime.datetime.now().isoformat()` is supplied by the caller as
`now`. -/
def extract_from_pytest_log (log_content : String) (now : String) : Option ErrorDetails :=
  if log_content = "" then none
  else
    let log := log_content.data
    let found := error_types.find? (fun et => containsSub (et.data ++ [':']) log)
    let error_type := match found with | some et => et | none => "Unknown"
    let msg1 : List Char :=
      match found with
      | some et =>
          match findIdx? (et.data ++ [':']) log with
          | some i =>
              let error_line := (log.drop i).takeWhile (fun c => c ≠ '\n')
              pyStrip (replaceAll (et.data ++ [':', ' ']) [] error_line)
          | none => []
      | none => []
    let msg2 := if msg1 = [] then fallbackE (splitNl log) else msg1
    let stack_trace : List Char :=
      if containsSub "Traceback".data log then
        match findIdx? "Traceback".data log with
        | some ts =>
            let rest := log.drop ts
            let te :=
              match findIdx? ['\n', '\n'] rest with
              | some j => j
              | none => rest.length
            pyStrip (rest.take te)
        | none => []
      else []
    let msg3 := if msg2 = [] then "Test execution failed".data else msg2
    let category := ErrorClassifier.classify_error (String.mk msg3) (String.mk stack_trace)
    some
      { error_type := error_type
        error_message := String.mk msg3
        error_category := category
        stack_trace := String.mk stack_trace
        test_step := none
        timestamp := now
        suggested_action := ErrorClassifier.get_suggested_action category }

/-- Embedding of `ErrorExtractor.extract_from_exception`.  The Python inputs
`type(exception).__name__`, `str(exception)` and `traceback.format_exc()` are
supplied as the strings `excType`, `excMessage`, `excTrace`. -/
def extract_from_exception (excType excMessage excTrace now : String) : ErrorDetails :=
  let category := ErrorClassifier.classify_error excMessage excTrace
  { error_type := excType
    error_message := excMessage
    error_category := category
    stack_trace := excTrace
    test_step := none
    timestamp := now
    suggested_action := ErrorClassifier.get_suggested_action category }

end ErrorExtractor

/-- A Python exception, as the data `extract_from_exception` reads from it. -/
structure PyException where
  excType : String
  message : String
  trace : String
deriving DecidableEq

namespace EnhancedErrorReporter

/-- Reporter state: `error_storage` is the Python dict
`test_id -> [ErrorDetails]` in key-insertion order; `error_statistics` is the
dict `category -> int` in key-insertion order. -/
structure ReporterState where
  error_storage : List (String × List ErrorDetails)
  error_statistics : List (String × Nat)
deriving DecidableEq

/-- The state built by `EnhancedErrorReporter.__init__`. -/
def initState : ReporterState := ⟨[], []⟩

/-- Append `d` to the list stored under key `k` (creating the key at the end,
as Python dict insertion does). -/
def storageAdd : List (String × List ErrorDetails) → String → ErrorDetails →
    List (String × List ErrorDetails)
  | [], k, d => [(k, [d])]
  | (k', ds) :: rest, k, d =>
      if k' == k then (k', ds ++ [d]) :: rest
      else (k', ds) :: storageAdd rest k d

/-- `self.error_statistics[category] = self.error_statistics.get(category, 0) + 1`. -/
def statsBump : List (String × Nat) → String → List (String × Nat)
  | [], c => [(c, 1)]
  | (c', n) :: rest, c =>
      if c' == c then (c', n + 1) :: rest
      else (c', n) :: statsBump rest c

/-- The extraction dispatch at the top of `capture_test_error`: prefer the
exception, else a non-empty log, else produce nothing. -/
def produceDetails (log_content : String) (exception : Option PyException)
    (now : String) : Option ErrorDetails :=
  match exception with
  | some e => some (ErrorExtractor.extract_from_exception e.excType e.message e.trace now)
  | none =>
      if log_content ≠ "" then ErrorExtractor.extract_from_pytest_log log_content now
      else none

/-- Embedding of `EnhancedErrorReporter.capture_test_error`. -/
def capture_test_error (st : ReporterState) (test_id : String)
    (log_content : String) (exception : Option PyException) (now : String) :
    ReporterState × Option ErrorDetails :=
  match produceDetails log_content exception now with
  | some d =>
      ({ error_storage := storageAdd st.error_storage test_id d
         error_statistics := statsBump st.error_statistics d.error_category }, some d)
  | none => (st, none)

/-- Embedding of `EnhancedErrorReporter.get_error_summary` (a copy of the
statistics dict). -/
def get_error_summary (st : ReporterState) : List (String × Nat) :=
  st.error_statistics

/-- All `ErrorDetails` records stored across every test id, in storage
order. -/
def storageRecords : List (String × List ErrorDetails) → List ErrorDetails
  | [] => []
  | (_, ds) :: rest => ds ++ storageRecords rest

/-- Count recorded for a category in a statistics dict (0 when absent). -/
def countIn (m : List (String × Nat)) (c : String) : Nat :=
  match m.find? (fun kv => kv.1 == c) with
  | some kv => kv.2
  | none => 0

/-- One `capture_test_error` call, as data. -/
structure CaptureCall where
  test_id : String
  log_content : String
  exception : Option PyException
  now : String

/-- Run a sequence of `capture_test_error` calls from the initial state. -/
def runCalls (calls : List CaptureCall) : ReporterState :=
  calls.foldl
    (fun st call =>
      (capture_test_error st call.test_id call.log_content call.exception call.now).1)
    initState

theorem countIn_statsBump (m : List (String × Nat)) (c c' : String) :
    countIn (statsBump m c) c' = countIn m c' + (if c = c' then 1 else 0) := by
  induction m with
  | nil =>
      by_cases h : c = c'
      · subst h
        simp [countIn, statsBump, List.find?]
      · have hb : (c == c') = false := beq_eq_false_iff_ne.mpr h
        simp [countIn, statsBump, List.find?, hb, h]
  | cons kv rest ih =>
      obtain ⟨k, n⟩ := kv
      by_cases hk : k = c
      · subst hk
        by_cases h : k = c'
        · subst h
          simp [countIn, statsBump, List.find?]
        · have hb : (k == c') = false := beq_eq_false_iff_ne.mpr h
          simp [countIn, statsBump, List.find?, hb, h]
      · have hbk : (k == c) = false := beq_eq_false_iff_ne.mpr hk
        by_cases h : k = c'
        · subst h
          have hcc : ¬ c = k := fun hc => hk hc.symm
          simp [countIn, statsBump, List.find?, hbk, hcc]
        · have hb : (k == c') = false := beq_eq_false_iff_ne.mpr h
          simpa [countIn, statsBump, List.find?, hbk, hb] using ih

theorem countP_storageAdd (stg : List (String × List ErrorDetails))
    (k : String) (d : ErrorDetails) (p : ErrorDetails → Bool) :
    (storageRecords (storageAdd stg k d)).countP p
      = (storageRecords stg).countP p + (if p d then 1 else 0) := by
  induction stg with
  | nil => by_cases h : p d <;> simp [storageRecords, storageAdd, List.countP_cons, h]
  | cons kv rest ih =>
      obtain ⟨k', ds⟩ := kv
      by_cases hk : k' = k
      · subst hk
        by_cases h : p d <;>
          simp [storageRecords, storageAdd, List.countP_append, List.countP_cons, h] <;> omega
      · simp only [storageAdd, beq_iff_eq]
        rw [if_neg hk]
        simp [storageRecords, List.countP_append, ih]
        omega

theorem inv_capture_step (st : ReporterState) (tid log : String)
    (exc : Option PyException) (now : String)
    (h : ∀ c, countIn st.error_statistics c
        = (storageRecords st.error_storage).countP (fun d => d.error_category == c)) :
    ∀ c, countIn (capture_test_error st tid log exc now).1.error_statistics c
        = (storageRecords (capture_test_error st tid log exc now).1.error_storage).countP
            (fun d => d.error_category == c) := by
  intro c
  unfold capture_test_error
  cases hd : produceDetails log exc now with
  | none => exact h c
  | some d =>
      simp only
      rw [countIn_statsBump, countP_storageAdd, h c]
      by_cases hc : d.error_category = c
      · simp [hc]
      · have hb : (d.error_category == c) = false := beq_eq_false_iff_ne.mpr hc
        simp [hc, hb]

theorem inv_foldl (calls : List CaptureCall) :
    ∀ st : ReporterState,
      (∀ c, countIn st.error_statistics c
          = (storageRecords st.error_storage).countP (fun d => d.error_category == c)) →
      ∀ c,
        countIn
          (calls.foldl
            (fun st call =>
              (capture_test_error st call.test_id call.log_content call.exception
                call.now).1) st).error_statistics c
          = (storageRecords
              (calls.foldl
                (fun st call =>
                  (capture_test_error st call.test_id call.log_content call.exception
                    call.now).1) st).error_storage).countP
              (fun d => d.error_category == c) := by
  induction calls with
  | nil => intro st h c; exact h c
  | cons call rest ih =>
      intro st h c
      exact ih _ (inv_capture_step st call.test_id call.log_content call.exception call.now h) c

end EnhancedErrorReporter

open EnhancedErrorReporter in
/-- Claim C6: after any sequence of `capture_test_error` calls, in any order,
the mapping returned by `get_error_summary` gives, for every category, exactly
the number of stored `ErrorDetails` records carrying that category (the
multiset count of categories across all stored records). -/
theorem claim_C6_category_counts_invariant (calls : List CaptureCall) (c : String) :
    countIn (get_error_summary (runCalls calls)) c
      = (storageRecords (runCalls calls).error_storage).countP
          (fun d => d.error_category == c) := by
  exact inv_foldl calls initState (fun _ => rfl) c

open ErrorClassifier in
/-- Claim C5: `classify_error` returns the category of the first rule of the
ordered `ERROR_PATTERNS` table for which some pattern matches the lowercased
concatenation of message and trace, and `"UNKNOWN"` when none matches; in
particular, an input matching both the timeout rule (`.*timed out.*`) and the
connection-error rule (`.*connection.*refused.*`) resolves to
`"TIMEOUT_ERROR"`, the earlier rule in the priority order. -/
theorem claim_C5_first_match_priority :
    (∀ m t : String, classify_error m t = classifyFirstMatch m t) ∧
    patternMatches ["timed out"] "request timed out: connection refused".data = true ∧
    patternMatches ["connection", "refused"] "request timed out: connection refused".data = true ∧
    classify_error "request timed out: connection refused" "" = "TIMEOUT_ERROR" := by
  refine ⟨fun m t => ?_, by decide, by decide, by decide⟩
  simp [classify_error, classifyFirstMatch, classifyGo_eq_find]

open ErrorClassifier in
/-- Claim C7: the classifier is total: empty or malformed input classifies to
`"UNKNOWN"`, and `get_suggested_action` returns the generic default string for
`"UNKNOWN"` and for every category absent from the suggestion table. -/
theorem claim_C7_degrades_gracefully :
    classify_error "" "" = "UNKNOWN" ∧
    classify_error "" "�\u0000�" = "UNKNOWN" ∧
    get_suggested_action "UNKNOWN" = UNKNOWN_ACTION ∧
    ∀ category : String,
      SUGGESTED_ACTIONS.find? (fun kv => kv.1 == category) = none →
      get_suggested_action category = UNKNOWN_ACTION := by
  refine ⟨by decide, by decide, by decide, fun category hnone => ?_⟩
  simp [get_suggested_action, hnone]

open ErrorClassifier in
/-- Witness for C7 at the concrete category `"NO_SUCH_CATEGORY"`, which is
absent from the suggestion table. -/
theorem claim_C7_degrades_gracefully_witness :
    get_suggested_action "NO_SUCH_CATEGORY" = UNKNOWN_ACTION :=
  claim_C7_degrades_gracefully.2.2.2 "NO_SUCH_CATEGORY" (by decide)

/-!
Embedding of `TestHistory` (`src/pytest_html_dashboard/history.py`).  The
three SQLite tables are lists of rows kept in rowid (insertion) order.
`CURRENT_TIMESTAMP` / `datetime('now', …)` values are integers supplied by
the caller as `now`, counted in days, so `datetime('now', '-' || d || ' days')`
is `now - d`.
-/

/-- Banker's rounding to an integer (Python `round` on an exact value). -/
def roundHalfEven (q : ℚ) : Int :=
  let f := ⌊q⌋
  let r := q - (f : ℚ)
  if r < 1 / 2 then f
  else if 1 / 2 < r then f + 1
  else if f % 2 = 0 then f else f + 1

/-- Python `round(x, n)` modelled exactly over `ℚ`. -/
def roundN (n : Nat) (q : ℚ) : ℚ :=
  (roundHalfEven (q * 10 ^ n) : ℚ) / 10 ^ n

/-- Python `x or default` for a nullable SQL aggregate result: `None` and
`0` both fall back to `default`. -/
def pyOrQ (x : Option ℚ) (default : ℚ) : ℚ :=
  match x with
  | none => default
  | some v => if v = 0 then default else v

/-- SQL `AVG` over the non-NULL values of a selected expression: `none` when
no value is present. -/
def avg? (l : List ℚ) : Option ℚ :=
  if l = [] then none else some (l.sum / l.length)

namespace TestHistory

/-- A row of the `test_runs` table. -/
structure TestRunRow where
  run_id : Nat
  timestamp : Int
  total_tests : Int
  passed : Int
  failed : Int
  skipped : Int
  errors : Int
  duration : ℚ
  branch : Option String
  commit_hash : Option String
  environment : Option String
  metadata : String
deriving DecidableEq

/-- A row of the `test_results` table. -/
structure TestResultRow where
  run_id : Nat
  test_id : String
  test_name : String
  outcome : String
  duration : ℚ
  error_message : Option String
  error_type : Option String
  timestamp : Int
deriving DecidableEq

/-- A row of the `flaky_tests` table; `flaky_count INTEGER DEFAULT 1`,
`pass_count`/`fail_count` `DEFAULT 0`, `last_flip_date DEFAULT
CURRENT_TIMESTAMP`. -/
structure FlakyRow where
  test_id : String
  test_name : String
  flaky_count : Nat
  last_flip_date : Int
  pass_count : Nat
  fail_count : Nat
deriving DecidableEq

/-- The whole store; `next_run_id` models the `AUTOINCREMENT` counter of
`test_runs` (SQLite starts at 1). -/
structure HistoryState where
  test_runs : List TestRunRow
  test_results : List TestResultRow
  flaky_tests : List FlakyRow
  next_run_id : Nat
deriving DecidableEq

/-- The empty store created by `_init_database`. -/
def initialState : HistoryState := ⟨[], [], [], 1⟩

/-- Modelled `_generate_test_id`: the source returns
`hashlib.md5(test_name.encode()).hexdigest()`, a stable identifier injective
in the test name; it is modelled as the name itself. -/
def _generate_test_id (test_name : String) : String := test_name

/-- The `results['summary']` dictionary read by `save_test_run` (each field
read with `.get(key, 0)`). -/
structure RunSummary where
  total : Int := 0
  passed : Int := 0
  failed : Int := 0
  skipped : Int := 0
  errors : Int := 0
  duration : ℚ := 0
deriving DecidableEq

/-- One entry of `results['tests']` as read by `save_test_run`. -/
structure TestInput where
  name : String
  outcome : String
  duration : ℚ := 0
  error_message : Option String := none
  error_type : Option String := none
deriving DecidableEq

/-- The query `SELECT outcome FROM test_results WHERE test_id = ? ORDER BY
timestamp DESC LIMIT 1` run by `_update_flaky_detection`.  Among rows with
equal timestamps SQLite's choice is unspecified; the model returns the most
recently inserted of the maximal-timestamp rows. -/
def latestStep (tid : String) (acc : Option TestResultRow) (r : TestResultRow) :
    Option TestResultRow :=
  if r.test_id == tid then
    match acc with
    | none => some r
    | some b => if b.timestamp ≤ r.timestamp then some r else some b
  else acc

/-- Fold realising the query above over the table in rowid order. -/
def latestResultFor (rows : List TestResultRow) (tid : String) : Option TestResultRow :=
  rows.foldl (latestStep tid) none

/-- Shared shape of the three `INSERT … ON CONFLICT(test_id) DO UPDATE`
statements on `flaky_tests`: update the existing row, else append a fresh
row (whose unspecified columns take the schema defaults). -/
def bumpUpsert (fl : List FlakyRow) (tid : String) (upd : FlakyRow → FlakyRow)
    (newRow : FlakyRow) : List FlakyRow :=
  if fl.any (fun f => f.test_id == tid) then
    fl.map (fun f => if f.test_id == tid then upd f else f)
  else fl ++ [newRow]

/-- The flip branch: `INSERT … (test_id, test_name, flaky_count) VALUES
(?, ?, 1) ON CONFLICT … SET flaky_count = flaky_count + 1, last_flip_date =
CURRENT_TIMESTAMP`. -/
def flipUpsert (fl : List FlakyRow) (tid nm : String) (now : Int) : List FlakyRow :=
  bumpUpsert fl tid
    (fun f => { f with flaky_count := f.flaky_count + 1, last_flip_date := now })
    { test_id := tid, test_name := nm, flaky_count := 1, last_flip_date := now,
      pass_count := 0, fail_count := 0 }

/-- The passed branch: `INSERT … (test_id, test_name, pass_count) VALUES
(?, ?, 1) ON CONFLICT … SET pass_count = pass_count + 1`; a fresh row takes
`flaky_count DEFAULT 1`. -/
def passUpsert (fl : List FlakyRow) (tid nm : String) (now : Int) : List FlakyRow :=
  bumpUpsert fl tid
    (fun f => { f with pass_count := f.pass_count + 1 })
    { test_id := tid, test_name := nm, flaky_count := 1, last_flip_date := now,
      pass_count := 1, fail_count := 0 }

/-- The failed branch, symmetric to `passUpsert`. -/
def failUpsert (fl : List FlakyRow) (tid nm : String) (now : Int) : List FlakyRow :=
  bumpUpsert fl tid
    (fun f => { f with fail_count := f.fail_count + 1 })
    { test_id := tid, test_name := nm, flaky_count := 1, last_flip_date := now,
      pass_count := 0, fail_count := 1 }

/-- The pass/fail-count half of `_update_flaky_detection`. -/
def updateCounts (fl : List FlakyRow) (tid nm oc : String) (now : Int) : List FlakyRow :=
  if oc = "passed" then passUpsert fl tid nm now
  else if oc = "failed" then failUpsert fl tid nm now
  else fl

/-- Embedding of `TestHistory._update_flaky_detection`.  It is called after
the current result row has been inserted, so its previous-outcome query runs
over `st.test_results` already containing that row — exactly as in the
source. -/
def _update_flaky_detection (st : HistoryState) (now : Int)
    (test_id test_name outcome : String) : HistoryState :=
  let previous := latestResultFor st.test_results test_id
  let fl1 :=
    match previous with
    | some prev =>
        if prev.outcome ≠ outcome then flipUpsert st.flaky_tests test_id test_name now
        else st.flaky_tests
    | none => st.flaky_tests
  { st with flaky_tests := updateCounts fl1 test_id test_name outcome now }

/-- The body of the `for test in results.get('tests', [])` loop of
`save_test_run`: insert the `test_results` row, then update flaky
detection. -/
def saveOneTest (now : Int) (run_id : Nat) (st : HistoryState) (t : TestInput) : HistoryState :=
  let test_id := _generate_test_id t.name
  let row : TestResultRow :=
    { run_id := run_id, test_id := test_id, test_name := t.name,
      outcome := t.outcome, duration := t.duration,
      error_message := t.error_message, error_type := t.error_type,
      timestamp := now }
  let st' := { st with test_results := st.test_results ++ [row] }
  _update_flaky_detection st' now test_id t.name t.outcome

/-- Embedding of `TestHistory.save_test_run`.  Returns the updated store and
the `run_id` (`cursor.lastrowid`). -/
def save_test_run (st : HistoryState) (now : Int) (summary : RunSummary)
    (tests : List TestInput) (branch commit_hash environment : Option String)
    (metadataJson : String) : HistoryState × Nat :=
  let run_id := st.next_run_id
  let runRow : TestRunRow :=
    { run_id := run_id, timestamp := now, total_tests := summary.total,
      passed := summary.passed, failed := summary.failed,
      skipped := summary.skipped, errors := summary.errors,
      duration := summary.duration, branch := branch,
      commit_hash := commit_hash, environment := environment,
      metadata := metadataJson }
  let st1 := { st with test_runs := st.test_runs ++ [runRow], next_run_id := run_id + 1 }
  let st2 := tests.foldl (saveOneTest now run_id) st1
  (st2, run_id)

/-- Stable insertion into a flaky list sorted by `flaky_count` descending:
the new element goes before the first element whose count is not larger. -/
def insertDesc (x : FlakyRow) : List FlakyRow → List FlakyRow
  | [] => [x]
  | y :: ys => if x.flaky_count < y.flaky_count then y :: insertDesc x ys else x :: y :: ys

/-- Stable sort by `flaky_count` descending. -/
def sortFlakyDesc : List FlakyRow → List FlakyRow
  | [] => []
  | x :: xs => insertDesc x (sortFlakyDesc xs)

/-- Embedding of `TestHistory.get_flaky_tests`: `WHERE flaky_count >= ?
ORDER BY flaky_count DESC` with no secondary sort key.  The SQL leaves the
relative order of equal counts unspecified; the model refines it
deterministically to a stable sort over the table scan (rowid) order. -/
def get_flaky_tests (st : HistoryState) (min_flips : Nat) : List FlakyRow :=
  sortFlakyDesc (st.flaky_tests.filter (fun f => min_flips ≤ f.flaky_count))

/-- The per-run expression `CAST(passed AS FLOAT) / NULLIF(total_tests, 0)
* 100` averaged by `get_statistics`: rows with `total_tests = 0` yield NULL
and are skipped by `AVG`. -/
def passRateVals (runs : List TestRunRow) : List ℚ :=
  runs.filterMap
    (fun r =>
      if r.total_tests = 0 then none
      else some ((r.passed : ℚ) / (r.total_tests : ℚ) * 100))

/-- The fields of the `get_statistics` result that the specification's claims
mention.  The two top-5 presentation lists (`most_failed_tests`,
`slowest_tests`) are not embedded; no claim refers to them. -/
structure Statistics where
  total_runs : Nat
  average_pass_rate : ℚ
deriving DecidableEq

/-- Embedding of `TestHistory.get_statistics`: `AVG(...)`, then
`fetchone()[0] or 0`, then `round(_, 2)`. -/
def get_statistics (st : HistoryState) : Statistics :=
  { total_runs := st.test_runs.length
    average_pass_rate := roundN 2 (pyOrQ (avg? (passRateVals st.test_runs)) 0) }

/-- The column list of the `test_runs` table as created by `_init_database`.
There is no `pass_rate` column. -/
def test_runs_columns : List String :=
  ["run_id", "timestamp", "total_tests", "passed", "failed", "skipped",
   "errors", "duration", "branch", "commit_hash", "environment", "metadata"]

/-- SQLite statement preparation for a query over a table with columns
`schema`: the first referenced column not present in the schema aborts with
`no such column`, before any row is read (so it fires even on an empty
table). -/
def sqlitePrepare (schema referenced : List String) : Except String Unit :=
  match referenced.find? (fun c => !(schema.contains c)) with
  | some c => Except.error ("no such column: " ++ c)
  | none => Except.ok ()

/-- Dynamic numeric-column access on a `test_runs` row (the text columns are
not read by any embedded query); an unknown column yields `none`. -/
def TestRunRow.col (r : TestRunRow) (c : String) : Option ℚ :=
  if c = "run_id" then some (r.run_id : ℚ)
  else if c = "timestamp" then some (r.timestamp : ℚ)
  else if c = "total_tests" then some (r.total_tests : ℚ)
  else if c = "passed" then some (r.passed : ℚ)
  else if c = "failed" then some (r.failed : ℚ)
  else if c = "skipped" then some (r.skipped : ℚ)
  else if c = "errors" then some (r.errors : ℚ)
  else if c = "duration" then some r.duration
  else none

/-- The dictionary returned by `get_trends`. -/
structure Trends where
  total_runs : Nat
  pass_rate_change : ℚ
  flaky_tests : Nat
  avg_duration : ℚ
deriving DecidableEq

/-- Embedding of `TestHistory.get_trends`.  Each SQL statement is prepared
against the columns it references before it is evaluated; the pass-rate
query references the non-existent column `pass_rate`, so preparation fails
there (`sqlite3.OperationalError` in Python, `Except.error` here). -/
def get_trends (st : HistoryState) (now : Int) (days : Int) : Except String Trends := do
  let cutoff := now - days
  sqlitePrepare test_runs_columns ["timestamp"]
  let total_runs := (st.test_runs.filter (fun r => cutoff ≤ r.timestamp)).length
  sqlitePrepare test_runs_columns ["timestamp", "pass_rate"]
  let recent :=
    avg? ((st.test_runs.filter (fun r => cutoff ≤ r.timestamp)).filterMap
      (fun r => r.col "pass_rate"))
  let old :=
    avg? ((st.test_runs.filter (fun r => r.timestamp < cutoff)).filterMap
      (fun r => r.col "pass_rate"))
  let recent_rate := pyOrQ recent 0
  let old_rate := pyOrQ old recent_rate
  let pass_rate_change := recent_rate - old_rate
  let flaky_count := st.flaky_tests.length
  let windowRunIds := (st.test_runs.filter (fun r => cutoff ≤ r.timestamp)).map (fun r => r.run_id)
  let avg_duration :=
    pyOrQ (avg? ((st.test_results.filter (fun t => windowRunIds.contains t.run_id)).map
      (fun t => t.duration))) 0
  return { total_runs := total_runs, pass_rate_change := roundN 2 pass_rate_change,
           flaky_tests := flaky_count, avg_duration := roundN 3 avg_duration }

/-- Embedding of `TestHistory.clear_old_data`: first `DELETE FROM
test_results` for rows whose `run_id` belongs to a run older than the
cutoff (the runs table is still intact at that point), then `DELETE FROM
test_runs` for those runs; `flaky_tests` is untouched. -/
def clear_old_data (st : HistoryState) (now : Int) (days : Int) : HistoryState :=
  let cutoff := now - days
  let oldRunIds := (st.test_runs.filter (fun r => r.timestamp < cutoff)).map (fun r => r.run_id)
  { st with
    test_results := st.test_results.filter (fun t => !(oldRunIds.contains t.run_id))
    test_runs := st.test_runs.filter (fun r => !(r.timestamp < cutoff)) }

end TestHistory

namespace TestHistory

/-- Summary of a one-test run that passed. -/
def sumPass : RunSummary := { total := 1, passed := 1 }

/-- Summary of a one-test run that failed. -/
def sumFail : RunSummary := { total := 1, failed := 1 }

/-- The test `t` passing. -/
def tPass : TestInput := { name := "t", outcome := "passed" }

/-- The test `t` failing. -/
def tFail : TestInput := { name := "t", outcome := "failed" }

/-- The store after recording outcome sequence passed, passed, failed,
passed for test `t` across four `save_test_run` calls at timestamps
1, 2, 3, 4. -/
def c1_state : HistoryState :=
  let s1 := (save_test_run initialState 1 sumPass [tPass] none none none "meta").1
  let s2 := (save_test_run s1 2 sumPass [tPass] none none none "meta").1
  let s3 := (save_test_run s2 3 sumFail [tFail] none none none "meta").1
  (save_test_run s3 4 sumPass [tPass] none none none "meta").1

/-- Two-run store for the average-pass-rate example: 10 tests with 8 passed,
then 5 tests with 5 passed. -/
def c4_state : HistoryState :=
  let s1 := (save_test_run initialState 1 { total := 10, passed := 8, failed := 2 }
    [] none none none "meta").1
  (save_test_run s1 2 { total := 5, passed := 5 } [] none none none "meta").1

/-- One run inside the 7-day trend window (saved at time 10, queried at
time 10). -/
def c2_state : HistoryState :=
  (save_test_run initialState 10 { total := 4, passed := 3, failed := 1 }
    [] none none none "meta").1

/-- One run recording tests named `b` then `a`, both passing: two
`flaky_tests` rows with equal `flaky_count`, inserted in the order `b`,
`a`. -/
def c8_state : HistoryState :=
  (save_test_run initialState 1 { total := 2, passed := 2 }
    [{ name := "b", outcome := "passed" }, { name := "a", outcome := "passed" }]
    none none none "meta").1

/-- Specification-side per-run mean: the mean of `passed/total` over runs
with a non-zero total. -/
def perRunPassMean (runs : List TestRunRow) : ℚ :=
  let ratios := (runs.filter (fun r => r.total_tests ≠ 0)).map
    (fun r => (r.passed : ℚ) / (r.total_tests : ℚ))
  ratios.sum / ratios.length

theorem passRateVals_eq (runs : List TestRunRow) :
    passRateVals runs
      = (runs.filter (fun r => r.total_tests ≠ 0)).map
          (fun r => (r.passed : ℚ) / (r.total_tests : ℚ) * 100) := by
  induction runs with
  | nil => rfl
  | cons r rest ih =>
      by_cases h : r.total_tests = 0 <;>
        simp [passRateVals, List.filterMap_cons, List.filter_cons, h] <;>
        simpa [passRateVals] using ih

theorem pyOrQ_avg (l : List ℚ) : pyOrQ (avg? l) 0 = l.sum / l.length := by
  by_cases h : l = []
  · subst h; simp [avg?, pyOrQ]
  · simp only [avg?, if_neg h, pyOrQ]
    by_cases h2 : l.sum / (l.length : ℚ) = 0 <;> simp [h2]

end TestHistory

open TestHistory in
/-- Claim C1 (evaluation of the code at the failing input): after the
recorded outcome sequence passed, passed, failed, passed for test `t` at
increasing timestamps, the `flaky_tests` row ends with `pass_count = 3` and
`fail_count = 1` as the claim states, but `flaky_count = 1` — still the
schema default set at the first recording, not incremented by the two flips:
`_update_flaky_detection` runs its previous-outcome query after the current
result row was inserted, so the newest row it finds is the current one and
the comparison never differs. -/
theorem claim_C1_flip_detection_failing_input :
    c1_state.flaky_tests =
      [{ test_id := "t", test_name := "t", flaky_count := 1, last_flip_date := 1,
         pass_count := 3, fail_count := 1 }] ∧
    c1_state.flaky_tests.map (fun f => f.flaky_count) ≠ [3] := by
  refine ⟨by decide, by decide⟩

open TestHistory in
/-- Claim C2 (evaluation of the code at the failing input): on a store whose
only run lies inside the trend window — where the claim requires
`pass_rate_delta = 0` — `get_trends` does not return at all: its pass-rate
query references the column `pass_rate`, which the `test_runs` schema does
not contain, so statement preparation fails. -/
theorem claim_C2_pass_rate_delta_failing_input :
    get_trends c2_state 10 7 = Except.error "no such column: pass_rate" := rfl

open TestHistory in
/-- Claim C3: `get_trends` never returns a placeholder summary — it fails on
every store, including the freshly initialised empty one, because its
pass-rate query names the non-existent `test_runs` column `pass_rate`. -/
theorem claim_C3_trend_summary_always_raises :
    (∀ (st : HistoryState) (now days : Int),
      get_trends st now days = Except.error "no such column: pass_rate") ∧
    get_trends initialState 0 7 = Except.error "no such column: pass_rate" :=
  ⟨fun _ _ _ => rfl, rfl⟩

theorem roundHalfEven_intCast (z : Int) : roundHalfEven (z : ℚ) = z := by
  simp [roundHalfEven, Int.floor_intCast]

theorem roundN_intCast (n : Nat) (z : Int) : roundN n ((z : ℚ)) = (z : ℚ) := by
  rw [roundN]
  have h1 : (z : ℚ) * 10 ^ n = ((z * 10 ^ n : Int) : ℚ) := by push_cast; ring
  rw [h1, roundHalfEven_intCast]
  push_cast
  rw [mul_div_assoc]
  have h10 : ((10 : ℚ) ^ n) ≠ 0 := by positivity
  field_simp

open TestHistory in
/-- Claim C4 counterexample: over the two runs 10 tests with 8 passed and
5 tests with 5 passed, `average_pass_rate` is `90` (a percentage), not the
claimed `0.90`; the claim as stated is false at this input. -/
theorem claim_C4_average_scale_counterexample :
    (get_statistics c4_state).average_pass_rate = 90 ∧
    (90 : ℚ) ≠ 9 / 10 := by
  constructor
  · have hruns : c4_state.test_runs
        = [{ run_id := 1, timestamp := 1, total_tests := 10, passed := 8, failed := 2,
             skipped := 0, errors := 0, duration := 0, branch := none,
             commit_hash := none, environment := none, metadata := "meta" },
           { run_id := 2, timestamp := 2, total_tests := 5, passed := 5, failed := 0,
             skipped := 0, errors := 0, duration := 0, branch := none,
             commit_hash := none, environment := none, metadata := "meta" }] := rfl
    have h : pyOrQ (avg? (passRateVals c4_state.test_runs)) 0 = ((90 : Int) : ℚ) := by
      rw [hruns, passRateVals_eq, pyOrQ_avg]
      norm_num [List.filter_cons]
    show roundN 2 (pyOrQ (avg? (passRateVals c4_state.test_runs)) 0) = 90
    rw [h, roundN_intCast]
    norm_num
  · norm_num

open TestHistory in
/-- Claim C4 amended: `average_pass_rate` is the per-run mean expressed as a
percentage — `round(100 × mean of per-run pass ratios, 2)` — for every
store; at the example input this is `90`, still distinct from the pooled
ratio. -/
theorem claim_C4_average_is_per_run_mean :
    ∀ st : HistoryState,
      (get_statistics st).average_pass_rate
        = roundN 2 (100 * perRunPassMean st.test_runs) := by
  intro st
  show roundN 2 (pyOrQ (avg? (passRateVals st.test_runs)) 0) = _
  rw [passRateVals_eq, pyOrQ_avg, perRunPassMean]
  simp only [List.sum_map_mul_right, List.length_map]
  congr 1
  ring

namespace TestHistory

theorem insertDesc_perm (x : FlakyRow) (l : List FlakyRow) :
    (insertDesc x l).Perm (x :: l) := by
  induction l with
  | nil => exact List.Perm.refl _
  | cons y ys ih =>
      rw [insertDesc]
      by_cases h : x.flaky_count < y.flaky_count
      · rw [if_pos h]
        exact (ih.cons y).trans (List.Perm.swap x y ys)
      · rw [if_neg h]

theorem sortFlakyDesc_perm (l : List FlakyRow) : (sortFlakyDesc l).Perm l := by
  induction l with
  | nil => exact List.Perm.refl _
  | cons x xs ih => exact (insertDesc_perm x (sortFlakyDesc xs)).trans (ih.cons x)

theorem insertDesc_pairwise (x : FlakyRow) (l : List FlakyRow)
    (h : l.Pairwise (fun a b => b.flaky_count ≤ a.flaky_count)) :
    (insertDesc x l).Pairwise (fun a b => b.flaky_count ≤ a.flaky_count) := by
  induction l with
  | nil => simp [insertDesc]
  | cons y ys ih =>
      obtain ⟨hy, hys⟩ := List.pairwise_cons.mp h
      rw [insertDesc]
      by_cases hc : x.flaky_count < y.flaky_count
      · rw [if_pos hc]
        refine List.pairwise_cons.mpr ⟨?_, ih hys⟩
        intro z hz
        have hz' : z ∈ x :: ys := (insertDesc_perm x ys).mem_iff.mp hz
        rcases List.mem_cons.mp hz' with hzx | hzys
        · rw [hzx]; exact Nat.le_of_lt hc
        · exact hy z hzys
      · rw [if_neg hc]
        refine List.pairwise_cons.mpr ⟨?_, h⟩
        intro z hz
        rcases List.mem_cons.mp hz with hzy | hzys
        · rw [hzy]; exact Nat.le_of_not_lt hc
        · exact le_trans (hy z hzys) (Nat.le_of_not_lt hc)

theorem sortFlakyDesc_pairwise (l : List FlakyRow) :
    (sortFlakyDesc l).Pairwise (fun a b => b.flaky_count ≤ a.flaky_count) := by
  induction l with
  | nil => simp [sortFlakyDesc]
  | cons x xs ih => exact insertDesc_pairwise x (sortFlakyDesc xs) ih

end TestHistory

open TestHistory in
/-- Claim C8 counterexample: tests `b` and `a` recorded in one run get equal
`flaky_count`; `get_flaky_tests` returns them in table insertion order
`b`, `a`, not in the claimed ascending `test_id` order `a`, `b` — the SQL has
no secondary sort key. -/
theorem claim_C8_tie_order_counterexample :
    (get_flaky_tests c8_state 1).map (fun f => f.test_id) = ["b", "a"] ∧
    (get_flaky_tests c8_state 1).map (fun f => f.flaky_count) = [1, 1] ∧
    "a" < "b" := by
  refine ⟨by decide, by decide, ?_⟩
  rw [String.lt_iff_toList_lt]
  decide

open TestHistory in
/-- Claim C8 amended: `get_flaky_tests` returns exactly the `flaky_tests`
rows with `flaky_count ≥ min_flips` (a permutation of that filter), ordered
by `flaky_count` descending; rows with equal counts appear in table
(insertion) order rather than sorted by `test_id`. -/
theorem claim_C8_filter_and_descending_order :
    ∀ (st : HistoryState) (min_flips : Nat),
      (get_flaky_tests st min_flips).Perm
        (st.flaky_tests.filter (fun f => min_flips ≤ f.flaky_count)) ∧
      (get_flaky_tests st min_flips).Pairwise
        (fun a b => b.flaky_count ≤ a.flaky_count) :=
  fun st min_flips =>
    ⟨sortFlakyDesc_perm _, sortFlakyDesc_pairwise _⟩

open TestHistory in
/-- Claim C9: `clear_old_data` leaves `flaky_tests` untouched, keeps exactly
the runs at or after the cutoff, and deletes exactly the result rows whose
`run_id` belongs to a run older than the cutoff; with a 0-day retention, a
store whose runs all predate `now` and whose result rows all reference an
existing run is emptied of runs and results. -/
theorem claim_C9_prune_frame :
    ∀ (st : HistoryState) (now days : Int),
      (clear_old_data st now days).flaky_tests = st.flaky_tests ∧
      (clear_old_data st now days).test_runs
        = st.test_runs.filter (fun r => !(r.timestamp < now - days)) ∧
      (clear_old_data st now days).test_results
        = st.test_results.filter
            (fun t => !(((st.test_runs.filter (fun r => r.timestamp < now - days)).map
                (fun r => r.run_id)).contains t.run_id)) ∧
      ((∀ r ∈ st.test_runs, r.timestamp < now) →
        (∀ t ∈ st.test_results, ∃ r ∈ st.test_runs, r.run_id = t.run_id) →
        (clear_old_data st now 0).test_runs = [] ∧
          (clear_old_data st now 0).test_results = []) := by
  intro st now days
  refine ⟨rfl, rfl, rfl, fun h1 h2 => ⟨?_, ?_⟩⟩
  · show st.test_runs.filter (fun r => !(r.timestamp < now - 0)) = []
    rw [List.filter_eq_nil]
    intro r hr
    simpa using h1 r hr
  · show st.test_results.filter
        (fun t => !(((st.test_runs.filter (fun r => r.timestamp < now - 0)).map
          (fun r => r.run_id)).contains t.run_id)) = []
    rw [List.filter_eq_nil]
    intro t ht
    obtain ⟨r, hrmem, hrid⟩ := h2 t ht
    simp
    exact ⟨r, hrmem, h1 r hrmem, hrid⟩

namespace TestHistory

theorem latestStep_foldl_mem (tid : String) (rows : List TestResultRow) :
    ∀ (acc : Option TestResultRow) (b : TestResultRow),
      rows.foldl (latestStep tid) acc = some b → b ∈ rows ∨ acc = some b := by
  induction rows with
  | nil => intro acc b h; exact Or.inr h
  | cons r rest ih =>
      intro acc b h
      rcases ih (latestStep tid acc r) b h with hmem | hstep
      · exact Or.inl (List.mem_cons_of_mem r hmem)
      · unfold latestStep at hstep
        by_cases hid : (r.test_id == tid) = true
        · rw [if_pos hid] at hstep
          cases acc with
          | none =>
              dsimp only at hstep
              exact Or.inl (by rw [← Option.some.inj hstep]; exact List.mem_cons_self r rest)
          | some c =>
              dsimp only at hstep
              by_cases hts : c.timestamp ≤ r.timestamp
              · rw [if_pos hts] at hstep
                exact Or.inl (by rw [← Option.some.inj hstep]; exact List.mem_cons_self r rest)
              · rw [if_neg hts] at hstep
                exact Or.inr hstep
        · rw [if_neg hid] at hstep
          exact Or.inr hstep

theorem latestResultFor_append_last (rows : List TestResultRow) (r0 : TestResultRow)
    (tid : String) (hid : (r0.test_id == tid) = true)
    (hle : ∀ b ∈ rows, b.timestamp ≤ r0.timestamp) :
    latestResultFor (rows ++ [r0]) tid = some r0 := by
  unfold latestResultFor
  rw [List.foldl_append]
  simp only [List.foldl]
  cases hacc : List.foldl (latestStep tid) none rows with
  | none => simp [latestStep, hid]
  | some b =>
      have hbmem : b ∈ rows := by
        rcases latestStep_foldl_mem tid rows none b hacc with h | h
        · exact h
        · exact absurd h (by simp)
      simp [latestStep, hid, hle b hbmem]

theorem saveOneTest_flaky (st : HistoryState) (now : Int) (rid : Nat) (t : TestInput)
    (hts : ∀ r ∈ st.test_results, r.timestamp ≤ now) :
    (saveOneTest now rid st t).flaky_tests
        = updateCounts st.flaky_tests (_generate_test_id t.name) t.name t.outcome now ∧
    (∀ r ∈ (saveOneTest now rid st t).test_results, r.timestamp ≤ now) := by
  unfold saveOneTest _update_flaky_detection
  have hprev :
      latestResultFor
        (st.test_results ++
          [{ run_id := rid, test_id := _generate_test_id t.name, test_name := t.name,
             outcome := t.outcome, duration := t.duration,
             error_message := t.error_message, error_type := t.error_type,
             timestamp := now }]) (_generate_test_id t.name)
      = some { run_id := rid, test_id := _generate_test_id t.name, test_name := t.name,
               outcome := t.outcome, duration := t.duration,
               error_message := t.error_message, error_type := t.error_type,
               timestamp := now } :=
    latestResultFor_append_last _ _ _ (by simp) (fun b hb => hts b hb)
  refine ⟨?_, ?_⟩
  · simp only [hprev]
    rw [if_neg (by simp)]
  · intro r hr
    simp only at hr
    rcases List.mem_append.mp hr with h | h
    · exact hts r h
    · rw [List.mem_singleton.mp h]

theorem foldl_saveOneTest_flaky (now : Int) (rid : Nat) (tests : List TestInput) :
    ∀ st : HistoryState, (∀ r ∈ st.test_results, r.timestamp ≤ now) →
      (tests.foldl (saveOneTest now rid) st).flaky_tests
        = tests.foldl
            (fun fl t => updateCounts fl (_generate_test_id t.name) t.name t.outcome now)
            st.flaky_tests ∧
      (∀ r ∈ (tests.foldl (saveOneTest now rid) st).test_results, r.timestamp ≤ now) := by
  induction tests with
  | nil => intro st h; exact ⟨rfl, h⟩
  | cons t rest ih =>
      intro st h
      obtain ⟨hfl, hts⟩ := saveOneTest_flaky st now rid t h
      obtain ⟨ihfl, ihts⟩ := ih (saveOneTest now rid st t) hts
      refine ⟨?_, ihts⟩
      simp only [List.foldl] at ihfl ⊢
      rw [ihfl, hfl]

theorem bumpUpsert_cases (fl : List FlakyRow) (tid : String) (upd : FlakyRow → FlakyRow)
    (newRow : FlakyRow)
    (hid : ∀ f, (upd f).test_id = f.test_id)
    (hcnt : ∀ f, (upd f).flaky_count = f.flaky_count)
    (hnewid : newRow.test_id = tid) (hnewcnt : newRow.flaky_count = 1) :
    (∀ g ∈ bumpUpsert fl tid upd newRow,
        (∃ f ∈ fl, g.test_id = f.test_id ∧ g.flaky_count = f.flaky_count) ∨
        (g.test_id = tid ∧ g.flaky_count = 1)) ∧
    (∀ f ∈ fl, ∃ g ∈ bumpUpsert fl tid upd newRow, g.test_id = f.test_id) ∧
    (∃ g ∈ bumpUpsert fl tid upd newRow, g.test_id = tid) := by
  unfold bumpUpsert
  by_cases hany : fl.any (fun f => f.test_id == tid) = true
  · rw [if_pos hany]
    refine ⟨?_, ?_, ?_⟩
    · intro g hg
      obtain ⟨f, hf, hgf⟩ := List.mem_map.mp hg
      by_cases hc : (f.test_id == tid) = true
      · rw [if_pos hc] at hgf
        exact Or.inl ⟨f, hf, by rw [← hgf, hid], by rw [← hgf, hcnt]⟩
      · rw [if_neg hc] at hgf
        exact Or.inl ⟨f, hf, by rw [← hgf], by rw [← hgf]⟩
    · intro f hf
      refine ⟨if (f.test_id == tid) = true then upd f else f,
        List.mem_map.mpr ⟨f, hf, rfl⟩, ?_⟩
      by_cases hc : (f.test_id == tid) = true
      · rw [if_pos hc, hid]
      · rw [if_neg hc]
    · obtain ⟨f, hf, hfc⟩ := List.any_eq_true.mp hany
      refine ⟨if (f.test_id == tid) = true then upd f else f,
        List.mem_map.mpr ⟨f, hf, rfl⟩, ?_⟩
      rw [if_pos hfc, hid]
      exact beq_iff_eq.mp hfc
  · rw [if_neg hany]
    refine ⟨?_, ?_, ?_⟩
    · intro g hg
      rcases List.mem_append.mp hg with h | h
      · exact Or.inl ⟨g, h, rfl, rfl⟩
      · rw [List.mem_singleton.mp h]
        exact Or.inr ⟨hnewid, hnewcnt⟩
    · intro f hf
      exact ⟨f, List.mem_append.mpr (Or.inl hf), rfl⟩
    · exact ⟨newRow, List.mem_append.mpr (Or.inr (List.mem_singleton.mpr rfl)), hnewid⟩

theorem updateCounts_cases (fl : List FlakyRow) (tid nm oc : String) (now : Int) :
    (∀ g ∈ updateCounts fl tid nm oc now,
        (∃ f ∈ fl, g.test_id = f.test_id ∧ g.flaky_count = f.flaky_count) ∨
        (g.test_id = tid ∧ g.flaky_count = 1)) ∧
    (∀ f ∈ fl, ∃ g ∈ updateCounts fl tid nm oc now, g.test_id = f.test_id) ∧
    ((oc = "passed" ∨ oc = "failed") →
      ∃ g ∈ updateCounts fl tid nm oc now, g.test_id = tid) := by
  unfold updateCounts
  by_cases h1 : oc = "passed"
  · rw [if_pos h1]
    obtain ⟨a, b, c⟩ := bumpUpsert_cases fl tid
      (fun f => { f with pass_count := f.pass_count + 1 })
      { test_id := tid, test_name := nm, flaky_count := 1, last_flip_date := now,
        pass_count := 1, fail_count := 0 }
      (fun _ => rfl) (fun _ => rfl) rfl rfl
    exact ⟨a, b, fun _ => c⟩
  · rw [if_neg h1]
    by_cases h2 : oc = "failed"
    · rw [if_pos h2]
      obtain ⟨a, b, c⟩ := bumpUpsert_cases fl tid
        (fun f => { f with fail_count := f.fail_count + 1 })
        { test_id := tid, test_name := nm, flaky_count := 1, last_flip_date := now,
          pass_count := 0, fail_count := 1 }
        (fun _ => rfl) (fun _ => rfl) rfl rfl
      exact ⟨a, b, fun _ => c⟩
    · rw [if_neg h2]
      refine ⟨fun g hg => Or.inl ⟨g, hg, rfl, rfl⟩, fun f hf => ⟨f, hf, rfl⟩, ?_⟩
      intro h
      rcases h with h | h
      · exact absurd h h1
      · exact absurd h h2

/-- The pure effect of one `save_test_run` call on `flaky_tests` when flips
are never detected: only the pass/fail-count upserts run, one per test. -/
def countsFold (now : Int) (tests : List TestInput) (fl : List FlakyRow) : List FlakyRow :=
  tests.foldl (fun fl t => updateCounts fl (_generate_test_id t.name) t.name t.outcome now) fl

theorem countsFold_count_one (now : Int) (tests : List TestInput) :
    ∀ (fl : List FlakyRow) (tid0 : String),
      (∀ g ∈ fl, g.test_id = tid0 → g.flaky_count = 1) →
      ∀ g ∈ countsFold now tests fl, g.test_id = tid0 → g.flaky_count = 1 := by
  induction tests with
  | nil => intro fl tid0 h; exact h
  | cons t rest ih =>
      intro fl tid0 h
      refine ih _ tid0 ?_
      intro g hg hgid
      rcases (updateCounts_cases fl (_generate_test_id t.name) t.name t.outcome now).1
          g hg with ⟨f, hf, hfid, hfcnt⟩ | ⟨_, hcnt⟩
      · rw [hfcnt]; exact h f hf (by rw [← hfid, hgid])
      · exact hcnt

theorem countsFold_keeps (now : Int) (tests : List TestInput) :
    ∀ (fl : List FlakyRow) (tid0 : String),
      (∃ g ∈ fl, g.test_id = tid0) →
      ∃ g ∈ countsFold now tests fl, g.test_id = tid0 := by
  induction tests with
  | nil => intro fl tid0 h; exact h
  | cons t rest ih =>
      intro fl tid0 ⟨g, hg, hgid⟩
      refine ih _ tid0 ?_
      obtain ⟨g', hg', hgid'⟩ :=
        (updateCounts_cases fl (_generate_test_id t.name) t.name t.outcome now).2.1 g hg
      exact ⟨g', hg', by rw [hgid', hgid]⟩

theorem countsFold_creates (now : Int) :
    ∀ (tests : List TestInput) (fl : List FlakyRow) (t0 : TestInput),
      t0 ∈ tests → (t0.outcome = "passed" ∨ t0.outcome = "failed") →
      ∃ g ∈ countsFold now tests fl, g.test_id = _generate_test_id t0.name := by
  intro tests
  induction tests with
  | nil => intro fl t0 h; exact absurd h (List.not_mem_nil t0)
  | cons t rest ih =>
      intro fl t0 hmem hoc
      rcases List.mem_cons.mp hmem with heq | hrest
      · subst heq
        refine countsFold_keeps now rest _ _ ?_
        exact (updateCounts_cases fl (_generate_test_id t0.name) t0.name t0.outcome now).2.2 hoc
      · exact ih _ t0 hrest hoc

end TestHistory

open TestHistory in
/-- Claim C10: a test whose id has no `flaky_tests` row yet, recorded by a
`save_test_run` call (at a timestamp not before all existing result rows)
with outcome `passed` or `failed`, gets a flaky row with the schema-default
`flaky_count = 1` — so this never-flipped test is already returned by
`get_flaky_tests` with `min_flips = 1`. -/
theorem claim_C10_default_row_reported :
    ∀ (st : HistoryState) (now : Int) (summary : RunSummary) (tests : List TestInput)
      (branch commit_hash environment : Option String) (metadataJson : String)
      (t0 : TestInput),
      t0 ∈ tests →
      (t0.outcome = "passed" ∨ t0.outcome = "failed") →
      (∀ r ∈ st.test_results, r.timestamp ≤ now) →
      (∀ f ∈ st.flaky_tests, f.test_id ≠ _generate_test_id t0.name) →
      ∃ f ∈ get_flaky_tests
          (save_test_run st now summary tests branch commit_hash environment
            metadataJson).1 1,
        f.test_id = _generate_test_id t0.name ∧ f.flaky_count = 1 := by
  intro st now summary tests branch commit_hash environment metadataJson t0
    hmem hoc hts hfresh
  have hflaky :
      (save_test_run st now summary tests branch commit_hash environment
          metadataJson).1.flaky_tests
        = countsFold now tests st.flaky_tests := by
    unfold save_test_run countsFold
    simp only
    exact (foldl_saveOneTest_flaky now st.next_run_id tests
        { st with
            test_runs := st.test_runs ++
              [{ run_id := st.next_run_id, timestamp := now,
                 total_tests := summary.total, passed := summary.passed,
                 failed := summary.failed, skipped := summary.skipped,
                 errors := summary.errors, duration := summary.duration,
                 branch := branch, commit_hash := commit_hash,
                 environment := environment, metadata := metadataJson }],
            next_run_id := st.next_run_id + 1 }
        hts).1
  obtain ⟨g, hg, hgid⟩ := countsFold_creates now tests st.flaky_tests t0 hmem hoc
  have hcnt : g.flaky_count = 1 :=
    countsFold_count_one now tests st.flaky_tests (_generate_test_id t0.name)
      (fun f hf hfid => absurd hfid (hfresh f hf)) g hg hgid
  refine ⟨g, ?_, hgid, hcnt⟩
  unfold get_flaky_tests
  rw [hflaky]
  refine (sortFlakyDesc_perm _).mem_iff.mpr ?_
  rw [List.mem_filter]
  exact ⟨hg, by rw [hcnt]; decide⟩

open TestHistory in
/-- Witness for C10: recording the single passing test `t` into the empty
store creates a flaky row with `flaky_count = 1` that `get_flaky_tests` with
`min_flips = 1` reports. -/
theorem claim_C10_default_row_reported_witness :
    ∃ f ∈ get_flaky_tests
        (save_test_run initialState 1 sumPass [tPass] none none none "meta").1 1,
      f.test_id = _generate_test_id tPass.name ∧ f.flaky_count = 1 :=
  claim_C10_default_row_reported initialState 1 sumPass [tPass] none none none "meta"
    tPass (List.mem_singleton.mpr rfl) (Or.inl rfl)
    (by intro r hr; exact absurd hr (List.not_mem_nil r))
    (by intro f hf; exact absurd hf (List.not_mem_nil f))

open TestHistory in
/-- Witness for C9: a store with one run (saved at time 1, one passing
test), pruned with a 0-day retention at time 5, loses its run and result
rows while its flaky row survives. -/
theorem claim_C9_prune_frame_witness :
    (clear_old_data (save_test_run initialState 1 sumPass [tPass] none none none "meta").1
        5 0).test_runs = [] ∧
    (clear_old_data (save_test_run initialState 1 sumPass [tPass] none none none "meta").1
        5 0).test_results = [] :=
  (claim_C9_prune_frame
      (save_test_run initialState 1 sumPass [tPass] none none none "meta").1 5 0).2.2.2
    (by decide) (by decide)

end Dashboard
